import Mathlib

/-!
# Verification of `audiobook_scraper.py`

A shallow embedding of the acquisition pipeline of `src/audiobook_scraper.py`
(classes `AudiobookScraper`, `FileManager`, `AudiobookProcessor`, function
`main`), together with theorems settling the specification's claims.

Modelling conventions:
* Raw bytes are `List Nat`.
* One HTTP GET is an `Outcome`: either a transport failure
  (`requests.RequestException`, which also covers a non-2xx status raised by
  `raise_for_status`) or a successful response carrying a body.
* Python `try/except` becomes `Except`; `Optional[str]` becomes `Option String`.
* The filesystem state an item touches is the explicit structure `FS`;
  path existence on disk is `Option.isSome` of the corresponding field.
* The two regular expressions of the source
  (`background-image:\s*url(([^)]+))` and `\baudiobook\b`) are embedded as
  executable scanning functions over `List Char` mirroring `re.search`
  semantics for these patterns (word characters are modelled as ASCII
  alphanumerics or underscore, whitespace as `Char.isWhitespace`).
-/

/-- Raw bytes of a payload or file. -/
abbrev Bytes := List Nat

/-- The observable result of one `requests.get`: a transport-level failure
(connection error, timeout, or non-2xx status raised by `raise_for_status`),
or a successful response with its body. -/
inductive Outcome where
  | transportError : Outcome
  | success : Bytes → Outcome
deriving DecidableEq, Repr

/-! ## String scanning helpers (embedding of the two `re.search` calls) -/

/-- `startsWithList p s`: `s` begins with `p` (character-exact). -/
def startsWithList : List Char → List Char → Bool
  | [], _ => true
  | _ :: _, [] => false
  | p :: ps, c :: cs => p = c && startsWithList ps cs

/-- Drop a literal from the front of `s`, or fail. -/
def dropLiteral : List Char → List Char → Option (List Char)
  | [], s => some s
  | _ :: _, [] => none
  | p :: ps, c :: cs => if p = c then dropLiteral ps cs else none

/-- Word characters for the purpose of the regex `\b` boundary
(`[A-Za-z0-9_]`; we model the ASCII fragment of Python's `\w`). -/
def wordChar (c : Char) : Bool := c.isAlphanum || c = '_'

/-! ### `re.search(r'background-image:\s*url\(([^)]+)\)', style)` -/

/-- Attempt the pattern `background-image:\s*url(([^)]+))` anchored at the
start of `s`: the literal `background-image:`, any run of whitespace, the
literal `url(`, a non-empty capture of characters other than `)`, then `)`.
Returns the capture group. -/
def bgUrlAt (s : List Char) : Option (List Char) :=
  match dropLiteral "background-image:".toList s with
  | none => none
  | some r1 =>
    let r2 := r1.dropWhile (fun c => c.isWhitespace)
    match dropLiteral "url(".toList r2 with
    | none => none
    | some r3 =>
      let cap := r3.takeWhile (fun c => c ≠ ')')
      if cap.isEmpty then none
      else
        match r3.dropWhile (fun c => c ≠ ')') with
        | ')' :: _ => some cap
        | _ => none

/-- `re.search` for the background-image pattern: try the anchored match at
each successive start position, leftmost first. (`bgUrlAt [] = none`, so the
empty suffix needs no extra case.) -/
def bgImageSearch : List Char → Option String
  | [] => none
  | c :: rest =>
    match bgUrlAt (c :: rest) with
    | some cap => some (String.mk cap)
    | none => bgImageSearch rest

/-! ### `re.compile(r'\baudiobook\b')` matched by BeautifulSoup against the
`class` attribute -/

/-- The literal of the token pattern. -/
def audiobookChars : List Char := "audiobook".toList

/-- `\b` before the match: the preceding character (if any) is not a word
character. `prev` is the character just before the current scan position. -/
def boundaryBefore (prev : Option Char) : Bool :=
  match prev with
  | none => true
  | some c => !wordChar c

/-- `\b` after the match: the following character (if any) is not a word
character. -/
def boundaryAfter (rest : List Char) : Bool :=
  match rest with
  | [] => true
  | c :: _ => !wordChar c

/-- The pattern `\baudiobook\b` anchored at the current position, with `prev`
the character just before that position. -/
def tokenAt (prev : Option Char) (s : List Char) : Bool :=
  boundaryBefore prev && startsWithList audiobookChars s &&
    boundaryAfter (s.drop audiobookChars.length)

/-- `re.search(r'\baudiobook\b', s)` as a Boolean: scan every position. -/
def tokenSearch : Option Char → List Char → Bool
  | prev, [] => tokenAt prev []
  | prev, c :: cs => tokenAt prev (c :: cs) || tokenSearch (some c) cs

/-- BeautifulSoup joins a multi-valued `class` attribute with single spaces
when it falls back to matching the full attribute value. -/
def joinClassChars : List String → List Char
  | [] => []
  | [c] => c.toList
  | c :: rest => c.toList ++ ' ' :: joinClassChars rest

/-- `soup.find_all('div', class_=re.compile(r'\baudiobook\b'))` membership
test on one element's class tokens: BeautifulSoup's `SoupStrainer._matches`
searches the regex against each class token separately and, failing that,
against the space-joined full attribute value. An absent class attribute is
the empty token list. -/
def classMatchAudiobook (classes : List String) : Bool :=
  classes.any (fun c => tokenSearch none c.toList) ||
    tokenSearch none (joinClassChars classes)

/-! ## `AudiobookScraper` -/

namespace AudiobookScraper

/-- Embedding of `AudiobookScraper.extract_image_url`.  The argument models
`div.find('div', class_='cover lazyBackgroundNone')` together with that
element's `style` attribute: `none` = no cover element found, `some none` =
cover element without a `style` attribute, `some (some style)` = cover
element with the given style text.  The source checks
`if cover_div and 'style' in cover_div.attrs`, then returns the regex
capture group or `None`. -/
def extract_image_url (cover_div : Option (Option String)) : Option String :=
  match cover_div with
  | some (some style) => bgImageSearch style.toList
  | some none => none
  | none => none

end AudiobookScraper

/-- One element of a parsed markup fragment: tag name and attributes.  Used
for the item-detail fragment that `get_audio_src` parses; `find` on a parsed
document is modelled as first match in document order over the element
list. -/
structure MarkupEl where
  tag : String
  attrs : List (String × String)
deriving DecidableEq, Repr

/-- Attribute lookup on an element (`el.attrs` is a dict, so keys are
unique; first match of an association list models it). -/
def attrOf (key : String) (el : MarkupEl) : Option String :=
  el.attrs.lookup key

/-- `soup.find('source', {'type': 'audio/mpeg'})`: the first element whose
tag is `source` and whose `type` attribute equals `audio/mpeg`. -/
def findSourceMpeg (doc : List MarkupEl) : Option MarkupEl :=
  doc.find? (fun el => el.tag = "source" && attrOf "type" el = some "audio/mpeg")

namespace AudiobookScraper

/-- Embedding of `AudiobookScraper.get_audio_src`.  The argument is the
observable result of `requests.get(url, headers=...)` followed by
`raise_for_status` and parsing: `Except.error ()` models a raised
`requests.RequestException` (caught by the source, which logs and returns
`None`), `Except.ok doc` the parsed detail fragment.  The source then
returns `source_tag['src'] if source_tag and 'src' in source_tag.attrs else
None`. -/
def get_audio_src (fetched : Except Unit (List MarkupEl)) : Option String :=
  match fetched with
  | .error _ => none
  | .ok doc =>
    match findSourceMpeg doc with
    | some source_tag =>
      if (attrOf "src" source_tag).isSome then attrOf "src" source_tag else none
    | none => none

end AudiobookScraper

/-- The per-claim, spec-side reading of §4.2: "locates an element
representing an audio source whose declared media type is MPEG audio;
returns its source attribute if present, else absent."  Stated with `bind`
so it is built independently of the embedded control flow of
`get_audio_src`. -/
def specResolvedAudioSrc (doc : List MarkupEl) : Option String :=
  (findSourceMpeg doc).bind (attrOf "src")

/-- One candidate `div` of the catalog page, holding exactly the observables
`extract_audiobook_data` reads from it:
* `classes` — the tokens of its `class` attribute (BeautifulSoup splits the
  attribute on whitespace; an absent attribute is `[]`);
* `data_id` — `div.get('data-id')`;
* `title_text` — `title_div.get_text(strip=True)` for
  `div.find('div', class_='title')`, or `none` when that child is absent;
* `cover_div` — the `div.find('div', class_='cover lazyBackgroundNone')`
  result as consumed by `extract_image_url` (present?, its style attribute).
-/
structure CatalogDiv where
  classes : List String
  data_id : Option String
  title_text : Option String
  cover_div : Option (Option String)
deriving DecidableEq, Repr

/-- One emitted record (`{'title': ..., 'cover_link': ..., 'audio_link': ...}`). -/
structure AudiobookRecord where
  title : String
  cover_link : Option String
  audio_link : Option String
deriving DecidableEq, Repr

/-- Python truthiness of an `Optional[str]`: `None` and `''` are falsy. -/
def truthyOpt (o : Option String) : Bool :=
  match o with
  | none => false
  | some s => s ≠ ""

namespace AudiobookScraper

/-- The body of the `for div in soup.find_all(...)` loop of
`extract_audiobook_data`, over the already-selected candidates.  `resolver`
stands for `self.get_audio_src` (a per-identifier network call).  Mirrors
the source order: read `data-id`, title text, cover URL, audio link (the
resolver is consulted only when `data_id` is truthy), then drop the
candidate when `not title or not data_id`, else append the record. -/
def extractLoop (resolver : String → Option String) :
    List CatalogDiv → List AudiobookRecord
  | [] => []
  | div :: rest =>
    let data_id := div.data_id
    let title := div.title_text
    let cover_url := extract_image_url div.cover_div
    let audio_link :=
      match data_id with
      | some id => if id ≠ "" then resolver id else none
      | none => none
    if truthyOpt title && truthyOpt data_id then
      { title := title.getD "", cover_link := cover_url, audio_link := audio_link } ::
        extractLoop resolver rest
    else
      extractLoop resolver rest

/-- Embedding of `AudiobookScraper.extract_audiobook_data`: select the
candidates via `find_all('div', class_=re.compile(r'\baudiobook\b'))`
(document order preserved), then run the loop body on each. -/
def extract_audiobook_data (resolver : String → Option String)
    (soup : List CatalogDiv) : List AudiobookRecord :=
  extractLoop resolver (soup.filter (fun d => classMatchAudiobook d.classes))

/-- Embedding of `AudiobookScraper.run`: `fetched` is the outcome of
`fetch_page` (the catalog GET, `raise_for_status`, and parse);
`Except.error ()` models any exception raised there, which `run` catches,
logs, and converts into `[]`. -/
def run (fetched : Except Unit (List CatalogDiv))
    (resolver : String → Option String) : List AudiobookRecord :=
  match fetched with
  | .error _ => []
  | .ok soup => extract_audiobook_data resolver soup

end AudiobookScraper

/-- A candidate that survives validation: truthy title and truthy
`data-id` (`if not title or not data_id: continue`). -/
def wellFormedDiv (d : CatalogDiv) : Bool :=
  truthyOpt d.title_text && truthyOpt d.data_id

/-- The record `extract_audiobook_data` builds from a (well-formed)
candidate. -/
def recordOfDiv (resolver : String → Option String) (d : CatalogDiv) :
    AudiobookRecord where
  title := d.title_text.getD ""
  cover_link := AudiobookScraper.extract_image_url d.cover_div
  audio_link :=
    match d.data_id with
    | some id => if id ≠ "" then resolver id else none
    | none => none

/-! ## `FileManager` -/

/-- Failures of the two downloaders.  `requestFailed` is a raised
`requests.RequestException` (including `MissingSchema` when the URL is
`None`); `maxRetriesExceeded` is the distinguishable
`ValueError("Max retries exceeded")` raised by `download_mp3` after
exhausting its attempts. -/
inductive DownloadError where
  | requestFailed : DownloadError
  | maxRetriesExceeded : DownloadError
deriving DecidableEq, Repr

namespace FileManager

/-- Embedding of `FileManager.download_file` (the single-attempt, no-retry
variant used for covers).  `url = none` models passing Python `None`:
`requests.get(None)` raises `MissingSchema`, a `RequestException`, which the
source re-raises after logging.  On success the whole body is written to the
file (the file is opened only after the GET succeeded, so a failed attempt
leaves no file behind); there is no emptiness check, so an empty body is a
successful, empty file.  Returns the bytes written. -/
def download_file (url : Option String) (fetch : String → Outcome) :
    Except DownloadError Bytes :=
  match url with
  | none => .error .requestFailed
  | some u =>
    match fetch u with
    | .transportError => .error .requestFailed
    | .success body => .ok body

/-- One iteration of the retry loop of `FileManager.download_mp3`, in source
order: GET (with `url = none` raising `MissingSchema` like above);
`raise_for_status` folded into `Outcome.transportError`; the
`if not response.content` emptiness check (raised BEFORE the file is
opened, so an empty body writes nothing); the chunked write of the body;
then the `destination_path.stat().st_size == 0` check — which, the body
being the bytes just written, can only fire when the body is empty, a case
the earlier check already caught.  `some body` = success with `body`
written; `none` = this attempt failed (and wrote nothing). -/
def attemptOnce (url : Option String) (fetch : String → Outcome) : Option Bytes :=
  match url with
  | none => none
  | some u =>
    match fetch u with
    | .transportError => none
    | .success body =>
      if body.isEmpty then none
      else if body.length = 0 then none
      else some body

/-- The `while attempt < max_retries` loop of `download_mp3`.  `remaining`
is `max_retries - attempt`, `idx` the 0-based index of the next attempt
(`fetch idx` is the transport's answer to attempt `idx + 1`).  Returns
(result, content written to the destination if any write happened, number
of attempts performed). -/
def download_mp3_go (url : Option String) (fetch : Nat → String → Outcome) :
    Nat → Nat → Except DownloadError Unit × Option Bytes × Nat
  | 0, idx => (.error .maxRetriesExceeded, none, idx)
  | remaining + 1, idx =>
    match attemptOnce url (fetch idx) with
    | some body => (.ok (), some body, idx + 1)
    | none => download_mp3_go url fetch remaining (idx + 1)

/-- Embedding of `FileManager.download_mp3` with its retry loop.  `fetch i`
is the transport's behaviour on attempt `i` (0-based).  On exhaustion it
raises `ValueError("Max retries exceeded")`. -/
def download_mp3 (url : Option String) (fetch : Nat → String → Outcome)
    (max_retries : Nat) : Except DownloadError Unit × Option Bytes × Nat :=
  download_mp3_go url fetch max_retries 0

end FileManager

/-- The ID3 frames `set_mp3_metadata` writes: `TIT2` (title), `TALB`
(album), `APIC` (embedded cover bytes). -/
structure Tags where
  title : String
  album : String
  coverArt : Option Bytes
deriving DecidableEq, Repr

/-- The content of the destination `.mp3` file: its audio bytes and its tag
header, `none` when the file has no ID3 header (a freshly downloaded
file). -/
structure Mp3File where
  audio : Bytes
  tags : Option Tags
deriving DecidableEq, Repr

/-- Errors raised out of `AudiobookProcessor.process` (the pipeline driver
boundary sees these). -/
inductive ProcError where
  | coverDownloadFailed : ProcError
  | mp3DownloadFailed : ProcError
  | tagFailed : ProcError
deriving DecidableEq, Repr

namespace FileManager

/-- Embedding of `FileManager.set_mp3_metadata`.  `mp3` and `cover` are the
current contents of `mp3_path` and `cover_path` (`none` = file absent).
`ID3(mp3_path)` on a missing file raises an I/O error that propagates;
on a file without a tag header it raises `ID3NoHeaderError`, caught and
replaced by an empty tag set.  `TIT2`/`TALB`/`APIC` frames are then set
(overwriting any prior value of those frames), the cover file is read fully
(`cover_path.open('rb')` raises if it is absent), and the tags are saved
back in place.  Returns the new file content. -/
def set_mp3_metadata (mp3 : Option Mp3File) (audio_name album_name : String)
    (cover : Option Bytes) : Except ProcError Mp3File :=
  match mp3 with
  | none => .error .tagFailed
  | some f =>
    match cover with
    | none => .error .tagFailed
    | some coverBytes =>
      .ok { audio := f.audio,
            tags := some { title := audio_name, album := album_name,
                           coverArt := some coverBytes } }

end FileManager

/-! ## `AudiobookProcessor` -/

/-- The slice of the filesystem one item touches: its folder,
`cover.jpg`, and `<title>.mp3`.  `Option.isSome` of a field is the
`Path.exists()` check on the corresponding path. -/
structure FS where
  folder : Bool
  cover : Option Bytes
  mp3 : Option Mp3File
deriving DecidableEq, Repr

/-- Observable side-effect counters: how many times `download_file`,
`download_mp3`, and `set_mp3_metadata` were invoked during one `process`
call. -/
structure ProcCounts where
  coverDownloads : Nat
  mp3Downloads : Nat
  tagCalls : Nat
deriving DecidableEq, Repr

/-- Apply the write `download_mp3` may have performed to the mp3 slot: a
fresh binary write truncates the file, leaving content with no tag
header. -/
def applyMp3Write (fs : FS) (written : Option Bytes) : FS :=
  match written with
  | some b => { fs with mp3 := some { audio := b, tags := none } }
  | none => fs

namespace AudiobookProcessor

/-- The tail of `AudiobookProcessor.process` from the (unconditional)
`set_mp3_metadata` call on: `cd`/`md` carry the download counts of the
earlier steps. -/
def processTag (audio_name album_name : String) (fs : FS) (cd md : Nat) :
    Except ProcError Unit × FS × ProcCounts :=
  match FileManager.set_mp3_metadata fs.mp3 audio_name album_name fs.cover with
  | .error e => (.error e, fs, ⟨cd, md, 1⟩)
  | .ok f => (.ok (), { fs with mp3 := some f }, ⟨cd, md, 1⟩)

/-- The tail of `process` from the `if not self.mp3_path.exists()` check on:
skip when the mp3 already exists, else `download_mp3` with its default
`max_retries = 3`; a raised download error propagates (the file state keeps
whatever was written). -/
def processFromMp3 (audio_link : Option String) (audio_name album_name : String)
    (mp3Fetch : Nat → String → Outcome) (fs : FS) (cd : Nat) :
    Except ProcError Unit × FS × ProcCounts :=
  if fs.mp3.isSome then
    processTag audio_name album_name fs cd 0
  else
    match FileManager.download_mp3 audio_link mp3Fetch 3 with
    | (.error _, written, _) =>
      (.error .mp3DownloadFailed, applyMp3Write fs written, ⟨cd, 1, 0⟩)
    | (.ok _, written, _) =>
      processTag audio_name album_name (applyMp3Write fs written) cd 1

/-- Embedding of `AudiobookProcessor.process`:
`folder_path.mkdir(parents=True, exist_ok=True)`; cover download guarded by
`cover_path.exists()` (single-attempt `download_file`, raising on failure);
mp3 download guarded by `mp3_path.exists()` (retrying `download_mp3`);
then always `set_mp3_metadata`.  `coverFetch` and `mp3Fetch` are the
transport's behaviour for the two downloads. -/
def process (cover_link audio_link : Option String)
    (audio_name album_name : String)
    (coverFetch : String → Outcome) (mp3Fetch : Nat → String → Outcome)
    (fs : FS) : Except ProcError Unit × FS × ProcCounts :=
  let fs0 : FS := { fs with folder := true }
  if fs0.cover.isSome then
    processFromMp3 audio_link audio_name album_name mp3Fetch fs0 0
  else
    match FileManager.download_file cover_link coverFetch with
    | .error _ => (.error .coverDownloadFailed, fs0, ⟨1, 0, 0⟩)
    | .ok body =>
      processFromMp3 audio_link audio_name album_name mp3Fetch
        { fs0 with cover := some body } 1

end AudiobookProcessor

/-! ## `main` (the Pipeline Driver) -/

/-- The `for audiobook in audiobooks:` loop of `main`, generic over the
state `σ` the per-item step threads (instantiated with the filesystem) and
over the step itself (instantiated with `AudiobookProcessor.process`).
The source wraps the loop body in NO `try/except`: an exception raised by
`processor.process()` propagates, so the loop returns the titles attempted
so far (the failing item included) and the escaping error.  Returns
(titles of the items the loop ran a processor for, the uncaught error if
one escaped, the final state). -/
def mainLoop {σ : Type} (step : AudiobookRecord → σ → Except ProcError Unit × σ) :
    List AudiobookRecord → σ → List String × Option ProcError × σ
  | [], s => ([], none, s)
  | r :: rest, s =>
    match step r s with
    | (.ok _, s1) =>
      let out := mainLoop step rest s1
      (r.title :: out.1, out.2.1, out.2.2)
    | (.error e, s1) => ([r.title], some e, s1)

/-! ## Theorems -/

/-- **C7.** Cover-URL extraction: for style text
`background-image: url(http://x/c.jpg)` the extracted URL is exactly
`http://x/c.jpg`; an absent cover element, a cover element without a style
attribute, and style text not matching the background-image pattern all
yield `none` (the embedded function is total, so no error escapes). -/
theorem C7_cover_url_extraction :
    AudiobookScraper.extract_image_url
        (some (some "background-image: url(http://x/c.jpg)")) =
      some "http://x/c.jpg" ∧
    AudiobookScraper.extract_image_url none = none ∧
    AudiobookScraper.extract_image_url (some none) = none ∧
    AudiobookScraper.extract_image_url (some (some "color: red")) = none ∧
    AudiobookScraper.extract_image_url
        (some (some "background-image: none")) = none := by
  refine ⟨?_, rfl, rfl, ?_, ?_⟩ <;> decide

/-- **C9.** When the catalog page fetch or its parse raises
(`fetch_page` propagates any `RequestException`; `run` catches every
exception), the whole run returns the empty list instead of re-raising. -/
theorem C9_catalog_failure_empty_run :
    ∀ (e : Unit) (resolver : String → Option String),
      AudiobookScraper.run (.error e) resolver = [] := by
  intro e resolver
  rfl

/-- **C8.** The Asset Resolver (`get_audio_src`): on any transport failure
it returns `none` (and, being total, never raises past its boundary);
on success it returns exactly the `src` attribute of the first
`source` element with media type `audio/mpeg` when that element and the
attribute exist, else `none` — stated against the independently built
spec-side reading `specResolvedAudioSrc`. -/
theorem C8_asset_resolver :
    ∀ (e : Unit) (doc : List MarkupEl),
      AudiobookScraper.get_audio_src (.error e) = none ∧
      AudiobookScraper.get_audio_src (.ok doc) = specResolvedAudioSrc doc := by
  intro e doc
  refine ⟨rfl, ?_⟩
  simp only [AudiobookScraper.get_audio_src, specResolvedAudioSrc]
  cases findSourceMpeg doc with
  | none => rfl
  | some el =>
    cases h : attrOf "src" el with
    | none => simp [h]
    | some src => simp [h]

/-- A transport attempt that `download_mp3` counts as failed: a raised
`RequestException`, or a 200 response whose body is empty. -/
def attemptFailsOn (o : Outcome) : Prop :=
  o = .transportError ∨ o = .success []

/-- A failed transport answer makes the whole `download_mp3` attempt fail
without writing anything. -/
theorem attemptOnce_none_of_fails {url : String} {fetch : String → Outcome}
    (h : attemptFailsOn (fetch url)) :
    FileManager.attemptOnce (some url) fetch = none := by
  rcases h with h | h <;> simp [FileManager.attemptOnce, h]

/-- **C2.** The retrying downloader with `max_retries = 3`: against a
transport failing on every attempt (transport error or empty body — the
zero-byte-file-after-write check can only fire for an empty body, which the
body check already catches before any write) it performs exactly 3 attempts,
writes nothing, and raises the distinguishable
`ValueError("Max retries exceeded")`; against a transport failing on the
first two attempts and answering a non-empty body on the third, it succeeds
on attempt 3 with that non-empty body written at the destination. -/
theorem C2_retry_bound :
    (∀ (url : String) (fetch : Nat → String → Outcome),
        (∀ i, i < 3 → attemptFailsOn (fetch i url)) →
        FileManager.download_mp3 (some url) fetch 3 =
          (.error .maxRetriesExceeded, none, 3)) ∧
    (∀ (url : String) (fetch : Nat → String → Outcome) (body : Bytes),
        attemptFailsOn (fetch 0 url) → attemptFailsOn (fetch 1 url) →
        fetch 2 url = .success body → body ≠ [] →
        FileManager.download_mp3 (some url) fetch 3 =
          (.ok (), some body, 3)) := by
  constructor
  · intro url fetch h
    have h0 := attemptOnce_none_of_fails (h 0 (by norm_num))
    have h1 := attemptOnce_none_of_fails (h 1 (by norm_num))
    have h2 := attemptOnce_none_of_fails (h 2 (by norm_num))
    simp [FileManager.download_mp3, FileManager.download_mp3_go, h0, h1, h2]
  · intro url fetch body h0 h1 h2 hne
    have a0 := attemptOnce_none_of_fails h0
    have a1 := attemptOnce_none_of_fails h1
    have a2 : FileManager.attemptOnce (some url) (fetch 2) = some body := by
      cases body with
      | nil => exact absurd rfl hne
      | cons b bs => simp [FileManager.attemptOnce, h2]
    simp [FileManager.download_mp3, FileManager.download_mp3_go, a0, a1, a2]

/-- Witness for C2 at concrete transports: an always-failing one (first a
connection error, then an empty 200 body, then a connection error), and one
that fails twice then serves the one-byte body `[1]`. -/
theorem C2_retry_bound_witness :
    FileManager.download_mp3 (some "u")
        (fun i _ => if i = 1 then Outcome.success [] else Outcome.transportError) 3 =
      (.error .maxRetriesExceeded, none, 3) ∧
    FileManager.download_mp3 (some "u")
        (fun i _ => if i < 2 then Outcome.transportError else Outcome.success [1]) 3 =
      (.ok (), some [1], 3) := by
  constructor
  · refine C2_retry_bound.1 "u" _ (fun i _ => ?_)
    by_cases h : i = 1 <;> simp [h, attemptFailsOn]
  · exact C2_retry_bound.2 "u" _ [1] (Or.inl rfl) (Or.inl rfl) rfl (by simp)

/-- A truthy `Optional[str]` is a present, non-empty string. -/
theorem truthyOpt_iff (o : Option String) :
    truthyOpt o = true ↔ ∃ s, o = some s ∧ s ≠ "" := by
  cases o <;> simp [truthyOpt]

/-- The extraction loop keeps exactly the well-formed candidates, in order,
each mapped to its record. -/
theorem extractLoop_eq (resolver : String → Option String)
    (l : List CatalogDiv) :
    AudiobookScraper.extractLoop resolver l =
      (l.filter wellFormedDiv).map (recordOfDiv resolver) := by
  induction l with
  | nil => rfl
  | cons d rest ih =>
    by_cases h : wellFormedDiv d = true
    · have h' : (truthyOpt d.title_text && truthyOpt d.data_id) = true := h
      simp [AudiobookScraper.extractLoop, List.filter_cons, h, h', ih, recordOfDiv]
    · have h' : (truthyOpt d.title_text && truthyOpt d.data_id) = false :=
        Bool.eq_false_iff.2 h
      simp [AudiobookScraper.extractLoop, List.filter_cons, h, h', ih]

/-- Splitting a list's length by a Boolean predicate. -/
theorem length_eq_countP_add_countP_not {α : Type} (p : α → Bool) (l : List α) :
    l.length = l.countP p + l.countP (fun a => !p a) := by
  induction l with
  | nil => rfl
  | cons c cs ih =>
    by_cases h : p c <;> simp [List.countP_cons, h, ih] <;> omega

/-- **C4.** The Catalog Extractor: its output is exactly the well-formed
candidates (truthy title and truthy `data-id`), in document order, mapped to
their records — so a malformed candidate is dropped without short-circuiting
the rest; no emitted record has an empty title; and a candidate list with
exactly one malformed element among the selected ones yields exactly one
record fewer than there are selected candidates. -/
theorem C4_extractor_validation :
    ∀ (resolver : String → Option String) (soup : List CatalogDiv),
      AudiobookScraper.extract_audiobook_data resolver soup =
        ((soup.filter (fun d => classMatchAudiobook d.classes)).filter
            wellFormedDiv).map (recordOfDiv resolver) ∧
      (∀ r ∈ AudiobookScraper.extract_audiobook_data resolver soup,
          r.title ≠ "") ∧
      ((soup.filter (fun d => classMatchAudiobook d.classes)).countP
            (fun d => !wellFormedDiv d) = 1 →
        (AudiobookScraper.extract_audiobook_data resolver soup).length =
          (soup.filter (fun d => classMatchAudiobook d.classes)).length - 1) := by
  intro resolver soup
  have heq : AudiobookScraper.extract_audiobook_data resolver soup =
      ((soup.filter (fun d => classMatchAudiobook d.classes)).filter
          wellFormedDiv).map (recordOfDiv resolver) :=
    extractLoop_eq resolver _
  refine ⟨heq, ?_, ?_⟩
  · intro r hr
    rw [heq] at hr
    obtain ⟨d, hd, hrd⟩ := List.mem_map.1 hr
    have hwf : wellFormedDiv d = true := List.of_mem_filter hd
    obtain ⟨s, hs, hne⟩ :=
      (truthyOpt_iff d.title_text).1 (Bool.and_elim_left hwf)
    rw [← hrd]
    simpa [recordOfDiv, hs] using hne
  · intro hone
    rw [heq]
    rw [List.length_map, ← List.countP_eq_length_filter,
      length_eq_countP_add_countP_not wellFormedDiv
        (soup.filter (fun d => classMatchAudiobook d.classes)), hone]
    omega

/-- Witness for C4 at a concrete catalog: three selected candidates of
which exactly the middle one is malformed (no `data-id`) yield two records,
in order. -/
theorem C4_extractor_validation_witness :
    AudiobookScraper.extract_audiobook_data (fun id => some (id ++ ".mp3"))
        [⟨["audiobook"], some "1", some "A", none⟩,
         ⟨["audiobook"], none, some "Broken", none⟩,
         ⟨["audiobook"], some "2", some "B", none⟩] =
      [⟨"A", none, some "1.mp3"⟩, ⟨"B", none, some "2.mp3"⟩] ∧
    (AudiobookScraper.extract_audiobook_data (fun id => some (id ++ ".mp3"))
        [⟨["audiobook"], some "1", some "A", none⟩,
         ⟨["audiobook"], none, some "Broken", none⟩,
         ⟨["audiobook"], some "2", some "B", none⟩]).length = 3 - 1 := by
  have h := C4_extractor_validation (fun id => some (id ++ ".mp3"))
    [⟨["audiobook"], some "1", some "A", none⟩,
     ⟨["audiobook"], none, some "Broken", none⟩,
     ⟨["audiobook"], some "2", some "B", none⟩]
  exact ⟨by decide, h.2.2 (by decide)⟩

/-- **C5.** Records with an absent cover or audio URL are emitted by the
extractor and filtered by no layer: a selected, well-formed candidate whose
cover element is missing yields a record with `cover_link = none`
(and, when the resolver fails soft, `audio_link = none`), kept in the
output; and the Item Processor, handed such a record when the corresponding
file does not yet exist, invokes the download with the absent URL —
`requests.get(None)` raises `MissingSchema` — and the error escapes the
processor: `coverDownloadFailed` for an absent cover URL, and (after the
three futile retry attempts) `mp3DownloadFailed` for an absent audio URL. -/
theorem C5_absent_urls_raise :
    (∀ (resolver : String → Option String) (d : CatalogDiv)
        (rest : List CatalogDiv),
        classMatchAudiobook d.classes = true →
        d.cover_div = none →
        wellFormedDiv d = true →
        AudiobookScraper.extract_audiobook_data resolver (d :: rest) =
          recordOfDiv resolver d ::
            AudiobookScraper.extract_audiobook_data resolver rest ∧
        (recordOfDiv resolver d).cover_link = none) ∧
    (∀ (audio_link : Option String) (audio_name album_name : String)
        (coverFetch : String → Outcome) (mp3Fetch : Nat → String → Outcome)
        (fs : FS),
        fs.cover = none →
        (AudiobookProcessor.process none audio_link audio_name album_name
            coverFetch mp3Fetch fs).1 = .error .coverDownloadFailed) ∧
    (∀ (cover_link : Option String) (audio_name album_name : String)
        (coverFetch : String → Outcome) (mp3Fetch : Nat → String → Outcome)
        (fs : FS),
        fs.cover.isSome = true →
        fs.mp3 = none →
        (AudiobookProcessor.process cover_link none audio_name album_name
            coverFetch mp3Fetch fs).1 = .error .mp3DownloadFailed) := by
  refine ⟨?_, ?_, ?_⟩
  · intro resolver d rest hsel hcov hwf
    constructor
    · rw [C4_extractor_validation resolver (d :: rest) |>.1,
        C4_extractor_validation resolver rest |>.1]
      simp [List.filter_cons, hsel, hwf]
    · simp [recordOfDiv, hcov, AudiobookScraper.extract_image_url]
  · intro audio_link audio_name album_name coverFetch mp3Fetch fs hcov
    simp [AudiobookProcessor.process, hcov, FileManager.download_file]
  · intro cover_link audio_name album_name coverFetch mp3Fetch fs hcov hmp3
    have hdl : FileManager.download_mp3 none mp3Fetch 3 =
        (.error .maxRetriesExceeded, none, 3) := rfl
    simp [AudiobookProcessor.process, AudiobookProcessor.processFromMp3,
      hcov, hmp3, hdl, applyMp3Write]

/-- Witness for C5 at concrete inputs: a candidate with no cover element
yields a record with absent cover and audio URLs; the processor on an empty
filesystem then fails with `coverDownloadFailed`; with the cover present on
disk and the audio URL absent, it fails with `mp3DownloadFailed`. -/
theorem C5_absent_urls_raise_witness :
    AudiobookScraper.extract_audiobook_data (fun _ => none)
        [⟨["audiobook"], some "42", some "Story A", none⟩] =
      [⟨"Story A", none, none⟩] ∧
    (AudiobookProcessor.process none none "Story A" "alb"
        (fun _ => Outcome.success [1]) (fun _ _ => Outcome.success [2])
        ⟨false, none, none⟩).1 = .error .coverDownloadFailed ∧
    (AudiobookProcessor.process none none "Story A" "alb"
        (fun _ => Outcome.success [1]) (fun _ _ => Outcome.success [2])
        ⟨false, some [1], none⟩).1 = .error .mp3DownloadFailed := by
  refine ⟨?_, ?_, ?_⟩
  · have h := (C5_absent_urls_raise.1 (fun _ => none)
      ⟨["audiobook"], some "42", some "Story A", none⟩ [] (by decide) rfl
      (by decide)).1
    rw [h]
    rfl
  · exact C5_absent_urls_raise.2.1 none "Story A" "alb" _ _
      ⟨false, none, none⟩ rfl
  · exact C5_absent_urls_raise.2.2 none "Story A" "alb" _ _
      ⟨false, some [1], none⟩ rfl rfl

/-- What a successful tagging step leaves behind: the counts record one tag
call, folder and cover are untouched, the cover existed (its bytes were read
into the `APIC` frame), and the mp3 now carries exactly the frames written. -/
theorem processTag_ok_shape {an al : String} {fs fs1 : FS} {cd md : Nat}
    {c : ProcCounts}
    (h : AudiobookProcessor.processTag an al fs cd md = (.ok (), fs1, c)) :
    c = ⟨cd, md, 1⟩ ∧ fs1.folder = fs.folder ∧ fs1.cover = fs.cover ∧
      ∃ cb f, fs.cover = some cb ∧
        fs1.mp3 = some ⟨f, some ⟨an, al, some cb⟩⟩ := by
  cases hm : fs.mp3 with
  | none =>
    simp [AudiobookProcessor.processTag, FileManager.set_mp3_metadata, hm] at h
  | some f =>
    cases hc : fs.cover with
    | none =>
      simp [AudiobookProcessor.processTag, FileManager.set_mp3_metadata,
        hm, hc] at h
    | some cb =>
      simp only [AudiobookProcessor.processTag, FileManager.set_mp3_metadata,
        hm, hc, Prod.mk.injEq] at h
      obtain ⟨-, hfs1, hcnt⟩ := h
      subst hfs1
      refine ⟨hcnt.symm, rfl, ?_, cb, f.audio, rfl, rfl⟩
      simp [hc]

/-- `applyMp3Write` only touches the mp3 slot. -/
theorem applyMp3Write_folder (fs : FS) (w : Option Bytes) :
    (applyMp3Write fs w).folder = fs.folder := by
  cases w <;> rfl

/-- `applyMp3Write` only touches the mp3 slot. -/
theorem applyMp3Write_cover (fs : FS) (w : Option Bytes) :
    (applyMp3Write fs w).cover = fs.cover := by
  cases w <;> rfl

/-- What a successful mp3 step plus tagging leaves behind. -/
theorem processFromMp3_ok_shape {audio_link : Option String} {an al : String}
    {mp3Fetch : Nat → String → Outcome} {fs fs1 : FS} {cd : Nat}
    {c : ProcCounts}
    (h : AudiobookProcessor.processFromMp3 audio_link an al mp3Fetch fs cd =
      (.ok (), fs1, c)) :
    fs1.folder = fs.folder ∧ fs1.cover = fs.cover ∧
      ∃ cb f, fs.cover = some cb ∧
        fs1.mp3 = some ⟨f, some ⟨an, al, some cb⟩⟩ := by
  by_cases hm : fs.mp3.isSome
  · rw [AudiobookProcessor.processFromMp3, if_pos hm] at h
    obtain ⟨-, hfold, hcov, shape⟩ := processTag_ok_shape h
    exact ⟨hfold, hcov, shape⟩
  · rw [AudiobookProcessor.processFromMp3, if_neg hm] at h
    rcases hdl : FileManager.download_mp3 audio_link mp3Fetch 3 with
      ⟨res, written, att⟩
    rw [hdl] at h
    cases res with
    | error e => simp at h
    | ok u =>
      obtain ⟨-, hfold, hcov, shape⟩ := processTag_ok_shape h
      rw [applyMp3Write_folder] at hfold
      rw [applyMp3Write_cover] at hcov
      rw [applyMp3Write_cover] at shape
      exact ⟨hfold, hcov, shape⟩

/-- What one fully successful `process` run guarantees about the final
filesystem: the folder exists, the cover exists, and the mp3 carries exactly
the title/album/cover frames of this run, with the cover frame's bytes
being the on-disk cover's bytes. -/
theorem process_ok_shape {cover_link audio_link : Option String}
    {an al : String} {coverFetch : String → Outcome}
    {mp3Fetch : Nat → String → Outcome} {fs fs1 : FS} {c : ProcCounts}
    (h : AudiobookProcessor.process cover_link audio_link an al coverFetch
      mp3Fetch fs = (.ok (), fs1, c)) :
    fs1.folder = true ∧
      ∃ cb f, fs1.cover = some cb ∧
        fs1.mp3 = some ⟨f, some ⟨an, al, some cb⟩⟩ := by
  rw [AudiobookProcessor.process] at h
  by_cases hc : ({ fs with folder := true } : FS).cover.isSome
  · rw [if_pos hc] at h
    obtain ⟨hfold, hcov, cb, f, hcb, hmp3⟩ := processFromMp3_ok_shape h
    exact ⟨hfold, cb, f, hcov.trans hcb, hmp3⟩
  · rw [if_neg hc] at h
    rcases hdf : FileManager.download_file cover_link coverFetch with e | body
    · rw [hdf] at h
      simp at h
    · rw [hdf] at h
      obtain ⟨hfold, hcov, cb, f, hcb, hmp3⟩ := processFromMp3_ok_shape h
      exact ⟨hfold, cb, f, hcov.trans hcb, hmp3⟩

/-- A filesystem already in the post-success shape makes `process` a pure
re-tagging pass: no downloads, one tagging call, and — the tag frames being
rewritten with the same values — an unchanged filesystem. -/
theorem process_second_run {cover_link audio_link : Option String}
    {an al : String} {coverFetch : String → Outcome}
    {mp3Fetch : Nat → String → Outcome} {fs : FS} {cb f : Bytes}
    (hfold : fs.folder = true) (hcov : fs.cover = some cb)
    (hmp3 : fs.mp3 = some ⟨f, some ⟨an, al, some cb⟩⟩) :
    AudiobookProcessor.process cover_link audio_link an al coverFetch
      mp3Fetch fs = (.ok (), fs, ⟨0, 0, 1⟩) := by
  obtain ⟨fold, cov, mp3⟩ := fs
  simp only at hfold hcov hmp3
  subst hfold hcov hmp3
  simp [AudiobookProcessor.process, AudiobookProcessor.processFromMp3,
    AudiobookProcessor.processTag, FileManager.set_mp3_metadata]

/-- **C3.** Idempotence of the Item Processor: after a fully successful run
on an item, rerunning `process` with the same inputs performs zero download
calls (both the cover and the mp3 existence checks skip), still performs
exactly one tagging call, and leaves the folder contents exactly as the
first run left them. -/
theorem C3_processor_idempotent :
    ∀ (cover_link audio_link : Option String) (an al : String)
      (coverFetch : String → Outcome) (mp3Fetch : Nat → String → Outcome)
      (fs fs1 : FS) (c1 : ProcCounts),
      AudiobookProcessor.process cover_link audio_link an al coverFetch
        mp3Fetch fs = (.ok (), fs1, c1) →
      AudiobookProcessor.process cover_link audio_link an al coverFetch
        mp3Fetch fs1 = (.ok (), fs1, ⟨0, 0, 1⟩) := by
  intro cover_link audio_link an al coverFetch mp3Fetch fs fs1 c1 h
  obtain ⟨hfold, cb, f, hcov, hmp3⟩ := process_ok_shape h
  exact process_second_run hfold hcov hmp3

/-- Witness for C3: a first run from an empty filesystem against transports
serving `[1]` (cover) and `[2, 3]` (audio); the second run on its result
changes nothing and counts zero downloads, one tagging call. -/
theorem C3_processor_idempotent_witness :
    AudiobookProcessor.process (some "c") (some "a") "t" "alb"
        (fun _ => Outcome.success [1]) (fun _ _ => Outcome.success [2, 3])
        ⟨true, some [1], some ⟨[2, 3], some ⟨"t", "alb", some [1]⟩⟩⟩ =
      (.ok (), ⟨true, some [1], some ⟨[2, 3], some ⟨"t", "alb", some [1]⟩⟩⟩,
        ⟨0, 0, 1⟩) :=
  C3_processor_idempotent (some "c") (some "a") "t" "alb"
    (fun _ => Outcome.success [1]) (fun _ _ => Outcome.success [2, 3])
    ⟨false, none, none⟩ _ _ rfl

/-- **C1, counterexample.** The claim says a failure while processing one
item does not abort the rest and the run does not fail; but the `for` loop
of `main` wraps `processor.process()` in no `try/except`.  Concretely: two
extracted records, the first with an absent cover URL (its processing
raises `coverDownloadFailed`), the second perfectly downloadable — the loop
stops after the first item ("A" is the only attempted title, "B" is never
processed) and the error escapes the driver (`some coverDownloadFailed`
instead of the claimed `none`). -/
theorem C1_driver_counterexample :
    mainLoop (σ := FS)
        (fun r fs =>
          let out := AudiobookProcessor.process r.cover_link r.audio_link
            r.title "Kubus Storytel" (fun _ => Outcome.success [1])
            (fun _ _ => Outcome.success [2]) fs
          (out.1, out.2.1))
        [⟨"A", none, some "u"⟩, ⟨"B", some "c", some "u"⟩]
        ⟨false, none, none⟩ =
      (["A"], some .coverDownloadFailed, ⟨true, none, none⟩) := by
  rfl

/-- **C1, amended.** The Pipeline Driver runs an Item Processor for each
record in document order, but only up to the first per-item failure: when
every item processes without failure, every record is processed exactly
once in order and no error escapes; when one item's processing raises, the
items before it have been processed, the failing item was attempted, the
remaining items are never processed, and the error propagates out of the
driver (the run fails). -/
theorem C1_driver_aborts_on_failure :
    ∀ {σ : Type} (step : AudiobookRecord → σ → Except ProcError Unit × σ),
      (∀ (records : List AudiobookRecord) (s : σ),
          (∀ r s', (step r s').1 = Except.ok ()) →
          (mainLoop step records s).1 = records.map AudiobookRecord.title ∧
          (mainLoop step records s).2.1 = none) ∧
      (∀ (good : List AudiobookRecord) (bad : AudiobookRecord)
          (rest : List AudiobookRecord) (e : ProcError) (s : σ),
          (∀ r, r ∈ good → ∀ s', (step r s').1 = Except.ok ()) →
          (∀ s', (step bad s').1 = Except.error e) →
          (mainLoop step (good ++ bad :: rest) s).1 =
            good.map AudiobookRecord.title ++ [bad.title] ∧
          (mainLoop step (good ++ bad :: rest) s).2.1 = some e) := by
  intro σ step
  constructor
  · intro records
    induction records with
    | nil => intro s h; exact ⟨rfl, rfl⟩
    | cons r rest ih =>
      intro s h
      rcases hp : step r s with ⟨res, s1⟩
      have hres := h r s
      rw [hp] at hres
      simp only at hres
      subst hres
      have := ih s1 h
      simp only [mainLoop, hp, List.map_cons]
      exact ⟨by rw [this.1], this.2⟩
  · intro good
    induction good with
    | nil =>
      intro bad rest e s hgood hbad
      rcases hp : step bad s with ⟨res, s1⟩
      have hres := hbad s
      rw [hp] at hres
      simp only at hres
      subst hres
      simp [mainLoop, hp]
    | cons g gs ih =>
      intro bad rest e s hgood hbad
      rcases hp : step g s with ⟨res, s1⟩
      have hres := hgood g (List.mem_cons_self g gs) s
      rw [hp] at hres
      simp only at hres
      subst hres
      have := ih bad rest e s1 (fun r hr => hgood r (List.mem_cons_of_mem g hr)) hbad
      simp only [List.cons_append, mainLoop, hp, List.map_cons]
      exact ⟨by simp only [List.append_eq]; rw [this.1], this.2⟩

/-- Witness for the amended C1 at concrete inputs: the all-success case on
two records (both processed, in order, no escaping error), and the
first-item-fails case of the counterexample (one good record after a bad
one; only the bad one is attempted). -/
theorem C1_driver_aborts_on_failure_witness :
    (mainLoop (σ := Unit) (fun _ s => (Except.ok (), s))
        [⟨"A", none, none⟩, ⟨"B", none, none⟩] ()).1 = ["A", "B"] ∧
    (mainLoop (σ := Unit)
        (fun r s => (if r.title = "Bad" then Except.error .tagFailed
          else Except.ok (), s))
        [⟨"Bad", none, none⟩, ⟨"B", none, none⟩] ()).2.1 =
      some .tagFailed := by
  constructor
  · exact ((C1_driver_aborts_on_failure (σ := Unit)
      (fun _ s => (Except.ok (), s))).1
      [⟨"A", none, none⟩, ⟨"B", none, none⟩] () (fun _ _ => rfl)).1
  · exact ((C1_driver_aborts_on_failure (σ := Unit)
      (fun r s => (if r.title = "Bad" then Except.error .tagFailed
        else Except.ok (), s))).2
      [] ⟨"Bad", none, none⟩ [⟨"B", none, none⟩] .tagFailed ()
      (fun r hr => absurd hr (List.not_mem_nil r)) (fun _ => rfl)).2

/-! ## Characterizing the `\baudiobook\b` match (for C10) -/

/-- The character immediately before the scan position reached after
consuming `pre`, when `prev` was the character before `pre`. -/
def lastCharOf (prev : Option Char) (pre : List Char) : Option Char :=
  match pre.getLast? with
  | some c => some c
  | none => prev

/-- The spec-side reading of "contains `audiobook` as a word-boundary
token": the string splits around a literal occurrence of `audiobook` whose
neighbouring characters (when they exist) are not word characters. -/
def HasAudiobookToken (s : List Char) : Prop :=
  ∃ pre suf, s = pre ++ audiobookChars ++ suf ∧
    (∀ c, pre.getLast? = some c → wordChar c = false) ∧
    (∀ c, suf.head? = some c → wordChar c = false)

theorem startsWithList_iff (p s : List Char) :
    startsWithList p s = true ↔ ∃ t, s = p ++ t := by
  induction p generalizing s with
  | nil => simp [startsWithList]
  | cons a p ih =>
    cases s with
    | nil =>
      simp only [startsWithList, List.cons_append]
      constructor
      · intro h; cases h
      · rintro ⟨t, ht⟩; cases ht
    | cons b s =>
      simp only [startsWithList, List.cons_append, Bool.and_eq_true,
        decide_eq_true_eq, ih]
      constructor
      · rintro ⟨rfl, t, rfl⟩; exact ⟨t, rfl⟩
      · rintro ⟨t, ht⟩
        obtain ⟨rfl, rfl⟩ : b = a ∧ s = p ++ t := by
          have := List.cons.injEq b s a (p ++ t) ▸ ht
          exact ⟨this.1, this.2⟩
        exact ⟨rfl, t, rfl⟩

theorem boundaryBefore_iff (prev : Option Char) :
    boundaryBefore prev = true ↔ ∀ c, prev = some c → wordChar c = false := by
  cases prev <;> simp [boundaryBefore]

theorem boundaryAfter_iff (l : List Char) :
    boundaryAfter l = true ↔ ∀ c, l.head? = some c → wordChar c = false := by
  cases l <;> simp [boundaryAfter]

theorem tokenAt_iff (prev : Option Char) (s : List Char) :
    tokenAt prev s = true ↔
      (∀ c, prev = some c → wordChar c = false) ∧
      ∃ suf, s = audiobookChars ++ suf ∧
        (∀ c, suf.head? = some c → wordChar c = false) := by
  simp only [tokenAt, Bool.and_eq_true, boundaryBefore_iff]
  constructor
  · rintro ⟨⟨hb, hs⟩, ha⟩
    obtain ⟨suf, rfl⟩ := (startsWithList_iff _ _).1 hs
    rw [List.drop_left] at ha
    exact ⟨hb, suf, rfl, (boundaryAfter_iff suf).1 ha⟩
  · rintro ⟨hb, suf, rfl, ha⟩
    refine ⟨⟨hb, (startsWithList_iff _ _).2 ⟨suf, rfl⟩⟩, ?_⟩
    rw [List.drop_left]
    exact (boundaryAfter_iff suf).2 ha

theorem lastCharOf_cons (prev : Option Char) (c : Char) (pre : List Char) :
    lastCharOf prev (c :: pre) = lastCharOf (some c) pre := by
  cases pre with
  | nil => rfl
  | cons d rest =>
    rw [lastCharOf, lastCharOf, List.getLast?_cons_cons]
    cases h : (d :: rest).getLast? with
    | some e => rfl
    | none =>
      have : (d :: rest).getLast?.isSome := List.getLast?_isSome.mpr (by simp)
      rw [h] at this
      cases this

/-- The scan `tokenSearch` finds a `\b`-bounded occurrence of `audiobook`
iff one exists, where `prev` is the character just before the scanned
suffix. -/
theorem tokenSearch_iff (s : List Char) :
    ∀ prev, tokenSearch prev s = true ↔
      ∃ pre suf, s = pre ++ audiobookChars ++ suf ∧
        (∀ c, lastCharOf prev pre = some c → wordChar c = false) ∧
        (∀ c, suf.head? = some c → wordChar c = false) := by
  induction s with
  | nil =>
    intro prev
    have hfalse : tokenSearch prev [] = false := by
      have : startsWithList audiobookChars [] = false := rfl
      simp [tokenSearch, tokenAt, this]
    rw [hfalse]
    refine iff_of_false (by simp) ?_
    rintro ⟨pre, suf, h, -, -⟩
    have : ([] : List Char).length = (pre ++ audiobookChars ++ suf).length :=
      congrArg List.length h
    simp [audiobookChars] at this
    omega
  | cons c cs ih =>
    intro prev
    simp only [tokenSearch, Bool.or_eq_true]
    constructor
    · rintro (h | h)
      · obtain ⟨hb, suf, heq, ha⟩ := (tokenAt_iff prev (c :: cs)).1 h
        exact ⟨[], suf, by simpa using heq,
          fun d hd => hb d (by simpa [lastCharOf] using hd), ha⟩
      · obtain ⟨pre, suf, heq, hb, ha⟩ := (ih (some c)).1 h
        exact ⟨c :: pre, suf, by simp [heq],
          fun d hd => hb d (by rwa [lastCharOf_cons] at hd), ha⟩
    · rintro ⟨pre, suf, heq, hb, ha⟩
      cases pre with
      | nil =>
        left
        refine (tokenAt_iff prev (c :: cs)).2
          ⟨fun d hd => hb d (by simpa [lastCharOf] using hd), suf,
            by simpa using heq, ha⟩
      | cons c' pre' =>
        right
        simp only [List.cons_append, List.cons.injEq] at heq
        obtain ⟨rfl, heq⟩ := heq
        exact (ih (some c)).2
          ⟨pre', suf, heq, fun d hd => hb d (by rwa [lastCharOf_cons]), ha⟩

/-- An occurrence of `audiobook` in `a ++ x :: b`, where `x` is not a
character of `audiobook`, lies entirely inside `a` or entirely inside
`b`. -/
theorem occ_split {a b pre suf : List Char} {x : Char}
    (hx : x ∉ audiobookChars)
    (h : a ++ x :: b = pre ++ audiobookChars ++ suf) :
    (∃ suf1, a = pre ++ audiobookChars ++ suf1 ∧ suf = suf1 ++ x :: b) ∨
    (∃ pre1, b = pre1 ++ audiobookChars ++ suf ∧ pre = a ++ x :: pre1) := by
  rw [List.append_assoc] at h
  rcases List.append_eq_append_iff.1 h with ⟨a1, hpre, hxb⟩ | ⟨c1, ha, hcs⟩
  · cases a1 with
    | nil =>
      exfalso
      apply hx
      simp only [List.nil_append] at hxb
      have hpat : audiobookChars = 'a' :: "udiobook".toList := rfl
      rw [hpat] at hxb
      simp only [List.cons_append, List.cons.injEq] at hxb
      rw [hxb.1, hpat]
      exact List.mem_cons_self _ _
    | cons x1 a2 =>
      simp only [List.cons_append, List.cons.injEq] at hxb
      obtain ⟨rfl, hb⟩ := hxb
      right
      exact ⟨a2, by rw [hb, List.append_assoc], by rw [hpre]⟩
  · rcases List.append_eq_append_iff.1 hcs with ⟨l, hc1, hsuf⟩ | ⟨l, hpat, hxb⟩
    · left
      exact ⟨l, by rw [ha, hc1, List.append_assoc], hsuf⟩
    · cases l with
      | nil =>
        left
        rw [List.append_nil] at hpat
        simp only [List.nil_append] at hxb
        exact ⟨[], by rw [List.append_nil, ha, ← hpat], by rw [← hxb]; rfl⟩
      | cons x1 l1 =>
        exfalso
        apply hx
        simp only [List.cons_append, List.cons.injEq] at hxb
        rw [hxb.1, hpat]
        exact List.mem_append_right _ (List.mem_cons_self _ _)

/-- A word-bounded occurrence of `audiobook` in `a ++ ' ' :: b` yields one
in `a` or one in `b` (a space separates them and is itself not a word
character, so the boundaries survive the split). -/
theorem hasToken_append_split {a b : List Char}
    (h : HasAudiobookToken (a ++ ' ' :: b)) :
    HasAudiobookToken a ∨ HasAudiobookToken b := by
  obtain ⟨pre, suf, heq, hb, ha⟩ := h
  have hx : (' ' : Char) ∉ audiobookChars := by decide
  rcases occ_split hx heq with ⟨suf1, ha1, hsuf⟩ | ⟨pre1, hb1, hpre⟩
  · left
    refine ⟨pre, suf1, ha1, hb, ?_⟩
    intro c hc
    apply ha c
    rw [hsuf]
    cases suf1 with
    | nil => cases hc
    | cons d rest =>
      simp only [List.head?_cons, Option.some.injEq] at hc
      simp [hc]
  · right
    refine ⟨pre1, suf, hb1, ?_, ha⟩
    intro c hc
    apply hb c
    rw [hpre]
    cases pre1 with
    | nil => cases hc
    | cons d rest =>
      rw [List.getLast?_append_of_ne_nil _ (by simp : ' ' :: d :: rest ≠ []),
        List.getLast?_cons_cons]
      exact hc

/-- There is no occurrence of `audiobook` in the empty string. -/
theorem not_hasAudiobookToken_nil : ¬ HasAudiobookToken [] := by
  rintro ⟨pre, suf, h, -, -⟩
  have := congrArg List.length h
  simp [audiobookChars] at this
  omega

/-- A word-bounded occurrence in the space-joined class attribute comes
from one of the class tokens. -/
theorem hasToken_join {classes : List String}
    (h : HasAudiobookToken (joinClassChars classes)) :
    ∃ c ∈ classes, HasAudiobookToken c.toList := by
  induction classes with
  | nil => exact absurd h not_hasAudiobookToken_nil
  | cons c rest ih =>
    cases rest with
    | nil => exact ⟨c, by simp, h⟩
    | cons c2 rest2 =>
      have hj : joinClassChars (c :: c2 :: rest2) =
          c.toList ++ ' ' :: joinClassChars (c2 :: rest2) := rfl
      rw [hj] at h
      rcases hasToken_append_split h with h1 | h2
      · exact ⟨c, by simp, h1⟩
      · obtain ⟨c', hmem, hc'⟩ := ih h2
        exact ⟨c', by simp [hmem], hc'⟩

/-- Scanning from the start of the string (`prev = none`) finds precisely a
word-bounded occurrence. -/
theorem tokenSearch_none_iff (s : List Char) :
    tokenSearch none s = true ↔ HasAudiobookToken s := by
  rw [tokenSearch_iff s none]
  have hl : ∀ pre : List Char, lastCharOf none pre = pre.getLast? := by
    intro pre
    cases h : pre.getLast? <;> simp [lastCharOf, h]
  constructor
  · rintro ⟨pre, suf, h1, h2, h3⟩
    exact ⟨pre, suf, h1, fun c hc => h2 c (by rw [hl]; exact hc), h3⟩
  · rintro ⟨pre, suf, h1, h2, h3⟩
    exact ⟨pre, suf, h1, fun c hc => h2 c (by rw [hl] at hc; exact hc), h3⟩

/-- The candidate-selection test of `find_all` matches exactly the elements
one of whose class tokens carries a word-bounded occurrence of `audiobook`
(the full-attribute fallback adds nothing: an occurrence in the space-joined
value always lies inside a single token). -/
theorem classMatchAudiobook_iff (classes : List String) :
    classMatchAudiobook classes = true ↔
      ∃ c ∈ classes, HasAudiobookToken c.toList := by
  simp only [classMatchAudiobook, Bool.or_eq_true, List.any_eq_true]
  constructor
  · rintro (⟨c, hmem, hc⟩ | hj)
    · exact ⟨c, hmem, (tokenSearch_none_iff _).1 hc⟩
    · exact hasToken_join ((tokenSearch_none_iff _).1 hj)
  · rintro ⟨c, hmem, hc⟩
    exact Or.inl ⟨c, hmem, (tokenSearch_none_iff _).2 hc⟩

/-- **C10.** Candidate selection by
`find_all('div', class_=re.compile(r'\baudiobook\b'))`: an element whose
class is `audiobooks-wrapper` is not selected (no word-boundary match),
an element whose class list contains the exact token `audiobook` is
selected, and in general an element is selected exactly when one of its
class tokens contains `audiobook` as a word-boundary-delimited
occurrence. -/
theorem C10_class_token_selection :
    classMatchAudiobook ["audiobooks-wrapper"] = false ∧
    (∀ classes : List String, "audiobook" ∈ classes →
        classMatchAudiobook classes = true) ∧
    (∀ classes : List String,
        classMatchAudiobook classes = true ↔
          ∃ c ∈ classes, HasAudiobookToken c.toList) := by
  refine ⟨by decide, ?_, classMatchAudiobook_iff⟩
  intro classes h
  refine (classMatchAudiobook_iff classes).2
    ⟨"audiobook", h, [], [], by simp [audiobookChars], ?_, ?_⟩ <;>
    intro c hc <;> cases hc

/-- Witness for C10: a class list carrying the exact token `audiobook`
next to another token is selected. -/
theorem C10_class_token_selection_witness :
    classMatchAudiobook ["wrapper", "audiobook"] = true :=
  C10_class_token_selection.2.1 ["wrapper", "audiobook"] (by simp)
